import Mathlib

/-!
Verification of the span-lifecycle / metrics-registry core of the
`nest-js-observability-controller` repository, by a shallow embedding of the
relevant TypeScript functions into Lean.

Conventions used throughout:
* JavaScript runtime values that flow through the instrumentation layer are
  modelled by the inductive type `JVal` (strings, numbers, booleans, `null`,
  plain objects as ordered association lists, arrays).
* Promise resolution / rejection and thrown exceptions are both modelled with
  `Except JsError`.  An `async` function that rejects and a sync function that
  throws are the same thing after `await`, which is how the source treats them.
* Mutable span/registry state is modelled by explicit state passing.
* Recursive walks that in JavaScript consume call-stack depth are written with
  an explicit `Nat` fuel so that every definition is structurally recursive and
  computable by the kernel.  Fuel exhaustion models stack overflow on cyclic
  input; a stability lemma shows the result no longer depends on the fuel once
  the fuel covers the (finite, tree-shaped) input, so any sufficiently large
  fuel denotes the JavaScript run.
-/

/-- A JavaScript error object: `name`, `message` and optional `stack`. -/
structure JsError where
  name : String
  message : String
  stack : Option String
deriving DecidableEq, Repr

/-- JS-like runtime value: primitive, `null`, plain object (ordered key/value
list, as produced and consumed by `Object.keys` iteration), or array. -/
inductive JVal where
  | vstr (s : String)
  | vnum (n : Int)
  | vbool (b : Bool)
  | vnull
  | vobj (fields : List (String × JVal))
  | varr (elems : List JVal)

/-- `typeof v === 'object' && v !== null` for a `JVal`: true exactly for plain
objects and arrays (JS `null` also has typeof object but is explicitly
excluded by the source checks we model). -/
def isObjectTyped : JVal → Bool
  | .vobj _ => true
  | .varr _ => true
  | _ => false

/-- Case-insensitive substring test, modelling
`key.toLowerCase().includes(field.toLowerCase())` from
`TracingInterceptor.sanitizeData` (`src/lib/tracing/interceptors/tracing.interceptor.ts`).
All the terms involved are ASCII, for which `Char.toLower` agrees with the JS
`toLowerCase`. -/
def lcContains (k f : String) : Bool :=
  decide ((f.toList.map Char.toLower) <:+: (k.toList.map Char.toLower))

/-- The `sensitiveFields` list of `TracingInterceptor.sanitizeData`, verbatim. -/
def sensitiveFields : List String :=
  ["password", "token", "secret", "authorization", "key", "apiKey", "api_key",
   "credential", "credentials", "accessToken", "refreshToken", "auth",
   "jwt", "session", "cookie", "csrf", "ssn", "cc", "card", "cvv", "pin"]

/-- `sensitiveFields.some(field => key.toLowerCase().includes(field.toLowerCase()))`. -/
def isSensitiveKey (k : String) : Bool :=
  sensitiveFields.any (fun f => lcContains k f)

/-- Index keys produced by spreading an array into an object literal
(`{...array}` yields keys "0", "1", ...), starting at index `i`. -/
def enumKeys (i : Nat) : List JVal → List (String × JVal)
  | [] => []
  | v :: vs => (toString i, v) :: enumKeys (i + 1) vs

/-- Fuel-indexed embedding of `TracingInterceptor.sanitizeData`.  The source
clones its argument (`{ ...data }`), then for each own key: a key whose
lowercased name contains a sensitive term gets the value `"[REDACTED]"`; an
object-typed, non-null value is replaced by the recursive sanitisation of that
value; anything else is kept.  Because the recursive call receives the raw
value (`sanitized[key]`) and itself begins with `{ ...data }`, an ARRAY value
is spread into a plain object keyed by its indices.  Fuel decreases once per
recursion level (JS stack depth); `0` fuel returns the argument unchanged and
is unreachable once the fuel covers the depth of the argument (see
`sanV_stable`).  The source only ever applies the function to object-typed
arguments; on a primitive the model returns the argument, a case the guards of
the source never reach. -/
def sanV : Nat → JVal → JVal
  | 0, v => v
  | fuel + 1, .vobj fs =>
    .vobj (fs.map (fun kv =>
      if isSensitiveKey kv.1 then (kv.1, .vstr "[REDACTED]")
      else if isObjectTyped kv.2 then (kv.1, sanV fuel kv.2)
      else kv))
  | fuel + 1, .varr es =>
    .vobj ((enumKeys 0 es).map (fun kv =>
      if isSensitiveKey kv.1 then (kv.1, .vstr "[REDACTED]")
      else if isObjectTyped kv.2 then (kv.1, sanV fuel kv.2)
      else kv))
  | _ + 1, v => v

/-- `depthLe n v` checks that the recursion depth `sanV` needs on `v` is at
most `n`, so that `sanV n v` no longer changes when the fuel grows. -/
def depthLe : Nat → JVal → Bool
  | 0, .vobj _ => false
  | 0, .varr _ => false
  | 0, _ => true
  | n + 1, .vobj fs => fs.all (fun kv => depthLe n kv.2)
  | n + 1, .varr es => es.all (fun v => depthLe n v)
  | _ + 1, _ => true

/-- The sensitive-term list exactly as the specification states it
(`password, token, secret, authorization, key, credential, accessToken,
refreshToken, auth, jwt, session, cookie, csrf, ssn, cc, card, cvv, pin`).
It lacks `apiKey`, `api_key`, `credentials`, which the source list has; the
two lists induce the same containment predicate (proved below). -/
def claimSensitiveTerms : List String :=
  ["password", "token", "secret", "authorization", "key", "credential",
   "accessToken", "refreshToken", "auth", "jwt", "session", "cookie",
   "csrf", "ssn", "cc", "card", "cvv", "pin"]

/-- The redaction predicate exactly as the claim states it. -/
def claimIsSensitiveKey (k : String) : Bool :=
  claimSensitiveTerms.any (fun f => lcContains k f)

/-- The sanitiser as described by the (amended) claim: same shape as the
source walk, but driven by the claim term list.  Used to compare the claim
text against the source-derived `sanV`. -/
def claimSanV : Nat → JVal → JVal
  | 0, v => v
  | fuel + 1, .vobj fs =>
    .vobj (fs.map (fun kv =>
      if claimIsSensitiveKey kv.1 then (kv.1, .vstr "[REDACTED]")
      else if isObjectTyped kv.2 then (kv.1, claimSanV fuel kv.2)
      else kv))
  | fuel + 1, .varr es =>
    .vobj ((enumKeys 0 es).map (fun kv =>
      if claimIsSensitiveKey kv.1 then (kv.1, .vstr "[REDACTED]")
      else if isObjectTyped kv.2 then (kv.1, claimSanV fuel kv.2)
      else kv))
  | _ + 1, v => v

/-- Computable rendering of a `JVal`, used to separate concrete values (the
derived decidable equality is not available for this nested inductive). -/
def renderJ : Nat → JVal → String
  | 0, _ => "druck"
  | _ + 1, .vstr s => "s:" ++ s
  | _ + 1, .vnum n => "n:" ++ toString n
  | _ + 1, .vbool b => "b:" ++ toString b
  | _ + 1, .vnull => "null"
  | fuel + 1, .vobj fs =>
    "o[" ++ String.join (fs.map (fun kv => kv.1 ++ "=" ++ renderJ fuel kv.2 ++ ";")) ++ "]"
  | fuel + 1, .varr es =>
    "a[" ++ String.join (es.map (fun v => renderJ fuel v ++ ";")) ++ "]"

/-- Span status as set through `span.setStatus` (`SpanStatusCode` plus the
optional message, which the source only supplies on the error paths). -/
inductive SpanStatus where
  | unset
  | statusOk
  | statusError (message : String)
deriving DecidableEq, Repr

/-- An attribute value as it appears in a `Record<string, any>` argument of
`createSpan` / `endSpan`.  An object-typed value carries the result of
`JSON.stringify` on it: `some s` when serialisation succeeds with `s`,
`none` when it throws (e.g. a circular structure); the serialiser itself is
external to the repository. -/
inductive AttrIn where
  | str (v : String)
  | num (v : Int)
  | bool (v : Bool)
  | null
  | undef
  | obj (stringified : Option String)
deriving DecidableEq, Repr

/-- An attribute value as actually passed to `span.setAttribute`. -/
inductive AttrVal where
  | s (v : String)
  | i (v : Int)
  | b (v : Bool)
deriving DecidableEq, Repr

/-- One entry of the attribute-attachment loop shared by `createSpan` and
`endSpan` (`tracing/tracing.service.ts`): `undefined`/`null` values are
skipped, object values are attached as their JSON serialisation or as the
fixed fallback `"[Object]"` when `JSON.stringify` throws, and primitive
values are attached as they are. -/
def attrEntryOut : String × AttrIn → List (String × AttrVal)
  | (_, .undef) => []
  | (_, .null) => []
  | (k, .obj (some s)) => [(k, .s s)]
  | (k, .obj none) => [(k, .s "[Object]")]
  | (k, .str v) => [(k, .s v)]
  | (k, .num v) => [(k, .i v)]
  | (k, .bool v) => [(k, .b v)]

/-- The whole `Object.entries(attributes).forEach` loop, as the list of
`setAttribute` calls it performs, in order. -/
def processAttrs (l : List (String × AttrIn)) : List (String × AttrVal) :=
  l.flatMap attrEntryOut

/-- Which methods a span object exposes: a real SDK span (full interface),
the ad hoc no-op literal of `createSpan` (exactly `setAttribute`, `setStatus`,
`recordException`, `end`), or the empty object `{}` that the disabled path of
`traceWithActiveSpan` passes to its callback (no methods at all). -/
inductive SpanSurface where
  | full
  | noopSurface
  | emptySurface
deriving DecidableEq, Repr

/-- The methods of the `@opentelemetry/api` `Span` interface. -/
inductive SpanMethodName where
  | setAttribute
  | setAttributes
  | setStatus
  | recordException
  | addEvent
  | updateName
  | isRecording
  | spanContext
  | addLink
  | endMethod
deriving DecidableEq, Repr

/-- All methods of the `Span` interface. -/
def spanInterfaceMethods : List SpanMethodName :=
  [.setAttribute, .setAttributes, .setStatus, .recordException, .addEvent,
   .updateName, .isRecording, .spanContext, .addLink, .endMethod]

/-- Which methods each span surface defines.  The no-op literal of
`createSpan` is `{ setAttribute, setStatus, recordException, end }`
(`tracing/tracing.service.ts`, disabled branch and catch branch). -/
def surfaceProvides : SpanSurface → SpanMethodName → Bool
  | .full, _ => true
  | .noopSurface, .setAttribute => true
  | .noopSurface, .setStatus => true
  | .noopSurface, .recordException => true
  | .noopSurface, .endMethod => true
  | .noopSurface, _ => false
  | .emptySurface, _ => false

/-- The `TypeError` JavaScript raises when a property that is not a function
is invoked (message text abbreviated). -/
def jsTypeError : JsError := ⟨"TypeError", "span method is not a function", none⟩

/-- Observable state of one span object.  For a `noopSurface` /
`emptySurface` span the recording fields never change (the stub bodies are
empty); `endCalls` counts invocations of the `end` method on any surface. -/
structure SpanObjState where
  surface : SpanSurface
  name : String
  kind : Option Nat
  startAttrs : List (String × AttrIn)
  attrs : List (String × AttrVal)
  status : SpanStatus
  exceptions : List String
  endCalls : Nat
deriving DecidableEq, Repr

/-- Invoking a method on a span object: a `TypeError` surfaces when the
object does not define the method, otherwise the call returns. -/
def callSpanMethod (st : SpanObjState) (m : SpanMethodName) : Except JsError Unit :=
  if surfaceProvides st.surface m then .ok () else .error jsTypeError

/-- Effect of `span.setAttribute(k, v)`: recorded on a real span, silently
dropped by the no-op stub. -/
def spanSetAttribute (st : SpanObjState) (k : String) (v : AttrVal) : SpanObjState :=
  if st.surface = .full then { st with attrs := st.attrs ++ [(k, v)] } else st

/-- Effect of `span.setStatus(c)`. -/
def spanSetStatus (st : SpanObjState) (c : SpanStatus) : SpanObjState :=
  if st.surface = .full then { st with status := c } else st

/-- Effect of `span.recordException(e)`. -/
def spanRecordException (st : SpanObjState) (e : JsError) : SpanObjState :=
  if st.surface = .full then { st with exceptions := st.exceptions ++ [e.message] } else st

/-- Effect of `span.end()`: the invocation is counted on every surface (the
no-op body does nothing further). -/
def spanEndCall (st : SpanObjState) : SpanObjState :=
  { st with endCalls := st.endCalls + 1 }

/-- Running a list of `setAttribute` calls in order. -/
def applyAttrList (st : SpanObjState) (l : List (String × AttrVal)) : SpanObjState :=
  l.foldl (fun s kv => spanSetAttribute s kv.1 kv.2) st

/-- The slice of `TracingConfig` that `createSpan` / `trace` /
`traceWithActiveSpan` read. -/
structure TracingCfg where
  enabled : Bool
  serviceName : String
  serviceVersion : String
  environment : String
deriving DecidableEq, Repr

/-- The no-op span literal `{ setAttribute, setStatus, recordException, end }`
returned by `createSpan` when tracing is disabled or the SDK interaction
throws. -/
def noopSpanState : SpanObjState :=
  ⟨.noopSurface, "", none, [], [], .unset, [], 0⟩

/-- The empty object `{}` passed (cast to `Span`) to the callback by the
disabled branch of `traceWithActiveSpan`. -/
def emptySpanState : SpanObjState :=
  ⟨.emptySurface, "", none, [], [], .unset, [], 0⟩

/-- The standard attributes `createSpan` places in the `startSpan` options
next to the caller attributes. -/
def stdStartAttrs (cfg : TracingCfg) : List (String × AttrIn) :=
  [("service.name", .str cfg.serviceName),
   ("service.version", .str cfg.serviceVersion),
   ("environment", .str cfg.environment)]

/-- Embedding of `TracingService.createSpan`
(`tracing/tracing.service.ts`, lines 231-300).  `sdkFails` models the tracer
interaction inside the `try` block throwing.  Returns the produced span
object together with a flag recording whether the SDK was touched at all.
Disabled configuration: the no-op literal, SDK untouched.  SDK failure:
caught, the no-op literal.  Otherwise a real span started with the standard
plus caller attributes, on which the attribute loop then performs its
`setAttribute` calls (JSON-serialising object values). -/
def createSpanRun (cfg : TracingCfg) (sdkFails : Bool) (name : String)
    (attributes : Option (List (String × AttrIn))) (kind : Option Nat) :
    SpanObjState × Bool :=
  if cfg.enabled = false then (noopSpanState, false)
  else if sdkFails then (noopSpanState, true)
  else
    let base : SpanObjState :=
      ⟨.full, name, kind, stdStartAttrs cfg ++ attributes.getD [], [], .unset, [], 0⟩
    (applyAttrList base (processAttrs (attributes.getD [])), true)

/-- The defensive duck-typing check of `endSpan`:
`typeof span.setAttribute === 'function' && typeof span.setStatus === 'function'
&& typeof span.end === 'function'`. -/
def hasRequiredMethods (st : SpanObjState) : Bool :=
  surfaceProvides st.surface .setAttribute && surfaceProvides st.surface .setStatus &&
    surfaceProvides st.surface .endMethod

/-- `error.name || 'Error'`. -/
def errorName (e : JsError) : String :=
  if e.name = "" then "Error" else e.name

/-- The body of `TracingService.endSpan` once the guards have passed
(`tracing/tracing.service.ts`, lines 330-383), as the sequence of span-method
calls the source performs: the extra-attribute loop, the
`operation.success` attribute, the status/exception block, then `span.end()`.
The surrounding `try`/`catch` never fires in the model because span methods
do not throw. -/
def endSpanValid (st : SpanObjState) (success : Bool) (error : Option JsError)
    (attributes : Option (List (String × AttrIn))) : SpanObjState :=
  let s1 := match attributes with
    | none => st
    | some l => applyAttrList st (processAttrs l)
  let s2 := spanSetAttribute s1 "operation.success" (.b success)
  let s3 :=
    if success then spanSetStatus s2 .statusOk
    else match error with
      | some e =>
        let t1 := spanSetStatus s2 (.statusError e.message)
        let t2 := spanRecordException t1 e
        let t3 := spanSetAttribute t2 "error.type" (.s (errorName e))
        let t4 := spanSetAttribute t3 "error.message" (.s e.message)
        match e.stack with
        | some stk => spanSetAttribute t4 "error.stack" (.s stk)
        | none => t4
      | none => spanSetStatus s2 (.statusError "Unknown error")
  spanEndCall s3

/-- Embedding of `TracingService.endSpan`
(`tracing/tracing.service.ts`, lines 309-384): early return on a null span,
early return when the duck-typing check fails, otherwise the
`endSpanValid` body. -/
def endSpanTS (span : Option SpanObjState) (success : Bool) (error : Option JsError)
    (attributes : Option (List (String × AttrIn))) : Option SpanObjState :=
  match span with
  | none => none
  | some st => if hasRequiredMethods st then some (endSpanValid st success error attributes) else some st

/-- Embedding of `TracingService.trace`
(`tracing/tracing.service.ts`, lines 393-426).  The function argument is
modelled by its outcome after `await` (`.ok` for a normal return or resolved
promise, `.error` for a throw or rejection); the optional
`resultAttributes` extractor may itself throw, which the source `try` also
catches.  `this.endSpan` is inlined as `endSpanValid`: both spans
`createSpan` can return carry the methods the duck-typing check looks for
(see `createSpan_hasRequiredMethods` and `endSpanTS_on_valid`). -/
def traceRun {T : Type} (cfg : TracingCfg) (sdkFails : Bool) (name : String)
    (attributes : Option (List (String × AttrIn))) (kind : Option Nat)
    (fnOutcome : Except JsError T)
    (resultAttributes : Option (T → Except JsError (Option (List (String × AttrIn))))) :
    Except JsError T × SpanObjState :=
  let span := (createSpanRun cfg sdkFails name attributes kind).1
  match fnOutcome with
  | .error e => (.error e, endSpanValid span false (some e) none)
  | .ok r =>
    match resultAttributes with
    | none => (.ok r, endSpanValid span true none none)
    | some f =>
      match f r with
      | .ok ra => (.ok r, endSpanValid span true none ra)
      | .error e2 => (.error e2, endSpanValid span false (some e2) none)

/-- Embedding of the disabled branch of `TracingService.traceWithActiveSpan`
(`tracing/tracing.service.ts`, lines 441-444): when the tracing pillar is
disabled the source executes `return fn({} as Span)` - the callback receives
the empty object, with no ambient-context manipulation.  (The enabled branch
delegates to the SDK and is not needed by the claims.) -/
def traceWithActiveSpanDisabled {T : Type} (fn : SpanObjState → Except JsError T) :
    Except JsError T :=
  fn emptySpanState

/-- One observable-gauge instrument: its identity and the SDK callback list
(`gauge.addCallback`); each stored callback reports the value of the
user-supplied zero-argument function. -/
structure GaugeInst where
  id : Nat
  callbacks : List (Unit → Int)

/-- State of `MetricsService` (`src/unnamed/part_010`): the `initialized`
flag, the configured metric name prefix (`options.metrics?.prefix`), the four
type-specific instrument caches (`Map` objects, modelled as association
lists in insertion order, keyed by the fully-qualified name and holding the
instrument identity), the SDK-side logs of recorded measurements (by
instrument identity; attribute payloads are irrelevant to the claims and
omitted), and an allocation counter: every JavaScript object allocation gets
a fresh identity, which models reference equality (`===`). -/
structure MetricsState where
  initialized : Bool
  pfx : Option String
  counters : List (String × Nat)
  histograms : List (String × Nat)
  upDownCounters : List (String × Nat)
  gauges : List (String × GaugeInst)
  counterAdds : List (Nat × Int)
  histRecords : List (Nat × Int)
  upDownAdds : List (Nat × Int)
  nextId : Nat

/-- `Map.get` / `Map.has` on an insertion-ordered association list. -/
def alistFind {α : Type} (l : List (String × α)) (k : String) : Option α :=
  match l with
  | [] => none
  | (k2, v) :: rest => if k2 = k then some v else alistFind rest k

/-- `MetricsService.getMetricKey`:
`const prefix = this.options.metrics?.prefix || ''; return prefix ? prefix + name : name`. -/
def getMetricKey (st : MetricsState) (name : String) : String :=
  let p := st.pfx.getD ""
  if p = "" then name else p ++ name

/-- A counter handle: either the fresh no-op literal `{ add: () => {} }`
returned while uninitialised, or a cached real instrument. -/
inductive CounterHandle where
  | noopC (freshId : Nat)
  | realC (id : Nat)
deriving DecidableEq, Repr

/-- A histogram handle (no-op literal `{ record: () => {} }` or real). -/
inductive HistogramHandle where
  | noopH (freshId : Nat)
  | realH (id : Nat)
deriving DecidableEq, Repr

/-- An up-down-counter handle (no-op literal `{ add: () => {} }` or real). -/
inductive UpDownHandle where
  | noopU (freshId : Nat)
  | realU (id : Nat)
deriving DecidableEq, Repr

/-- An observable-gauge handle: the uninitialised branch returns a fresh
EMPTY object literal (`{} as ObservableGauge`), otherwise the cached real
instrument. -/
inductive GaugeHandle where
  | emptyG (freshId : Nat)
  | realG (id : Nat)
deriving DecidableEq, Repr

/-- `MetricsService.getCounter` (part_010, lines 75-91): a fresh no-op
literal while uninitialised; otherwise look up the prefixed key in the
counter cache, creating and caching a new instrument on a miss, and return
the cached handle. -/
def getCounter (st : MetricsState) (name : String) : CounterHandle × MetricsState :=
  if st.initialized = false then
    (.noopC st.nextId, { st with nextId := st.nextId + 1 })
  else
    let key := getMetricKey st name
    match alistFind st.counters key with
    | some id => (.realC id, st)
    | none =>
      (.realC st.nextId,
        { st with counters := st.counters ++ [(key, st.nextId)], nextId := st.nextId + 1 })

/-- `MetricsService.getHistogram` (part_010, lines 96-112). -/
def getHistogram (st : MetricsState) (name : String) : HistogramHandle × MetricsState :=
  if st.initialized = false then
    (.noopH st.nextId, { st with nextId := st.nextId + 1 })
  else
    let key := getMetricKey st name
    match alistFind st.histograms key with
    | some id => (.realH id, st)
    | none =>
      (.realH st.nextId,
        { st with histograms := st.histograms ++ [(key, st.nextId)], nextId := st.nextId + 1 })

/-- `MetricsService.getUpDownCounter` (part_010, lines 117-133). -/
def getUpDownCounter (st : MetricsState) (name : String) : UpDownHandle × MetricsState :=
  if st.initialized = false then
    (.noopU st.nextId, { st with nextId := st.nextId + 1 })
  else
    let key := getMetricKey st name
    match alistFind st.upDownCounters key with
    | some id => (.realU id, st)
    | none =>
      (.realU st.nextId,
        { st with upDownCounters := st.upDownCounters ++ [(key, st.nextId)], nextId := st.nextId + 1 })

/-- `MetricsService.getObservableGauge` (part_010, lines 138-157): while
uninitialised, a fresh empty object; on a cache miss, create the gauge,
register the (wrapped) user callback on it, cache it; on a hit, return the
cached gauge - the supplied callback is dropped. -/
def getObservableGauge (st : MetricsState) (name : String) (callback : Unit → Int) :
    GaugeHandle × MetricsState :=
  if st.initialized = false then
    (.emptyG st.nextId, { st with nextId := st.nextId + 1 })
  else
    let key := getMetricKey st name
    match alistFind st.gauges key with
    | some g => (.realG g.id, st)
    | none =>
      (.realG st.nextId,
        { st with gauges := st.gauges ++ [(key, ⟨st.nextId, [callback]⟩)], nextId := st.nextId + 1 })

/-- `counter.add(v)`: the no-op literal swallows the call; a real instrument
logs the measurement against its identity. -/
def counterAddRun (st : MetricsState) (h : CounterHandle) (v : Int) : MetricsState :=
  match h with
  | .noopC _ => st
  | .realC id => { st with counterAdds := st.counterAdds ++ [(id, v)] }

/-- `histogram.record(v)`. -/
def histRecordRun (st : MetricsState) (h : HistogramHandle) (v : Int) : MetricsState :=
  match h with
  | .noopH _ => st
  | .realH id => { st with histRecords := st.histRecords ++ [(id, v)] }

/-- `upDownCounter.add(v)`. -/
def upDownAddRun (st : MetricsState) (h : UpDownHandle) (v : Int) : MetricsState :=
  match h with
  | .noopU _ => st
  | .realU id => { st with upDownAdds := st.upDownAdds ++ [(id, v)] }

/-- `ObservabilityService.recordGaugeMetric(name, value)` (part_009, lines
71-74): `const callback = () => value; this.metricsService.getObservableGauge(name, callback)`. -/
def recordGaugeMetric (st : MetricsState) (name : String) (value : Int) : MetricsState :=
  (getObservableGauge st name (fun _ => value)).2

/-- A metrics state with empty caches, as after construction (initialised or
not depending on whether `initialize` ran to completion). -/
def emptyMetricsState (ini : Bool) : MetricsState :=
  ⟨ini, none, [], [], [], [], [], [], [], 0⟩

/-- One instrument-accessor call, for stating the registry-lifetime
invariant. -/
inductive MetricOp where
  | opCounter (name : String)
  | opHistogram (name : String)
  | opUpDown (name : String)
  | opGauge (name : String) (callback : Unit → Int)

/-- State effect of one accessor call. -/
def metricStep (st : MetricsState) : MetricOp → MetricsState
  | .opCounter n => (getCounter st n).2
  | .opHistogram n => (getHistogram st n).2
  | .opUpDown n => (getUpDownCounter st n).2
  | .opGauge n cb => (getObservableGauge st n cb).2

/-- Running a sequence of accessor calls. -/
def runMetricOps (st : MetricsState) (ops : List MetricOp) : MetricsState :=
  ops.foldl metricStep st

/-- At most one instrument of each kind per fully-qualified name: every
cache has pairwise-distinct keys. -/
def distinctKeys (st : MetricsState) : Prop :=
  (st.counters.map Prod.fst).Nodup ∧ (st.histograms.map Prod.fst).Nodup ∧
    (st.upDownCounters.map Prod.fst).Nodup ∧ (st.gauges.map Prod.fst).Nodup

/-- A heap value for the mutation model of the sanitiser: primitives are
immediate, objects and arrays are references into a heap. -/
inductive HVal where
  | hstr (s : String)
  | hnum (n : Int)
  | hbool (b : Bool)
  | hnull
  | href (a : Nat)
deriving DecidableEq, Repr

/-- A heap cell: a plain object (ordered fields) or an array. -/
inductive HCell where
  | objCell (fields : List (String × HVal))
  | arrCell (elems : List HVal)
deriving DecidableEq, Repr

/-- The JavaScript object heap: cell at address `i` is entry `i`; allocation
appends; assignment to a field of an existing object is `List.set` at its
address. -/
abbrev Heap := List HCell

/-- Index keys for spreading an array into an object literal. -/
def enumHV (i : Nat) : List HVal → List (String × HVal)
  | [] => []
  | v :: vs => (toString i, v) :: enumHV (i + 1) vs

/-- The own enumerable entries the spread `{ ...data }` copies out of a
cell: an object contributes its fields, an array its elements under index
keys. -/
def cellEntries : HCell → List (String × HVal)
  | .objCell fs => fs
  | .arrCell es => enumHV 0 es

/-- One step of the `Object.keys(sanitized).forEach` loop of
`sanitizeData`, parameterised by the recursive sanitiser `recf` (the walk at
the remaining stack depth): a sensitive key gets `"[REDACTED]"`, a reference
(object-typed, non-null) value is replaced by a reference to the recursive
sanitisation of its target - threading the heap - and any other value is
kept.  The accumulator carries the heap and the clone fields processed so
far; `none` aborts (fuel exhaustion inside a recursive call). -/
def sanStepG (recf : Heap → Nat → Option (Heap × Nat))
    (acc : Option (Heap × List (String × HVal))) (kv : String × HVal) :
    Option (Heap × List (String × HVal)) :=
  match acc with
  | none => none
  | some (h2, out) =>
    if isSensitiveKey kv.1 then some (h2, out ++ [(kv.1, .hstr "[REDACTED]")])
    else match kv.2 with
      | .href b =>
        match recf h2 b with
        | none => none
        | some (h3, b2) => some (h3, out ++ [(kv.1, .href b2)])
      | v => some (h2, out ++ [(kv.1, v)])

/-- Heap-level embedding of `TracingInterceptor.sanitizeData`: clone the
argument (`{ ...data }` - a fresh object allocated at the end of the heap,
spreading an array into an index-keyed plain object), run the key loop, and
return the address of the clone.  The per-key assignments into the clone are
coalesced into the single final `List.set`: the loop never reads the clone
cell (all references being processed point at pre-existing cells), so the
two presentations agree observably.  Fuel models JS stack depth; `none`
models the stack overflow a cyclic object produces. -/
def sanitizeH : Nat → Heap → Nat → Option (Heap × Nat)
  | 0, _, _ => none
  | fuel + 1, h, a =>
    match h[a]? with
    | none => none
    | some cell =>
      match (cellEntries cell).foldl (sanStepG (sanitizeH fuel))
          (some (h ++ [HCell.objCell (cellEntries cell)], [])) with
      | none => none
      | some (h4, newFields) =>
        some (h4.set h.length (HCell.objCell newFields), h.length)

/-- `h2` extends `h`: it is at least as long and agrees with `h` on every
address of `h`. -/
def heapExt (h h2 : Heap) : Prop :=
  h.length ≤ h2.length ∧ ∀ i, i < h.length → h2[i]? = h[i]?

/-- Concrete input heap for the C10 witness: address 0 holds
`{password: "p", nested: ref 1}`, address 1 holds `{token: "t"}`. -/
def hExample : Heap :=
  [HCell.objCell [("password", HVal.hstr "p"), ("nested", HVal.href 1)],
   HCell.objCell [("token", HVal.hstr "t")]]

/-- The heap after sanitising address 0 of `hExample`: the two original
cells unchanged, the sanitised nested object at address 3, the sanitised
root at address 2. -/
def hExampleOut : Heap :=
  [HCell.objCell [("password", HVal.hstr "p"), ("nested", HVal.href 1)],
   HCell.objCell [("token", HVal.hstr "t")],
   HCell.objCell [("password", HVal.hstr "[REDACTED]"), ("nested", HVal.href 3)],
   HCell.objCell [("token", HVal.hstr "[REDACTED]")]]

/-- `METRICS.HTTP_REQUEST_DURATION` from `src/lib/constants.ts`. -/
def httpRequestDurationName : String := "http.request.duration"

/-- `METRICS.HTTP_REQUEST_TOTAL` from `src/lib/constants.ts`. -/
def httpRequestTotalName : String := "http.request.total"

/-- `METRICS.HTTP_ERROR_TOTAL` from `src/lib/constants.ts`. -/
def httpErrorTotalName : String := "http.error.total"

/-- `MetricsService.incrementHttpRequestTotal` (part_010, lines 172-177):
early return while uninitialised, otherwise `getCounter` on the fixed name
and `counter.add(1, attributes)` (attribute payloads are irrelevant to the
claims and not logged). -/
def incrementHttpRequestTotal (st : MetricsState) : MetricsState :=
  if st.initialized = false then st
  else
    let r := getCounter st httpRequestTotalName
    counterAddRun r.2 r.1 1

/-- `MetricsService.incrementHttpErrorTotal` (part_010, lines 182-187). -/
def incrementHttpErrorTotal (st : MetricsState) : MetricsState :=
  if st.initialized = false then st
  else
    let r := getCounter st httpErrorTotalName
    counterAddRun r.2 r.1 1

/-- `MetricsService.recordHttpRequestDuration` (part_010, lines 162-167). -/
def recordHttpRequestDuration (st : MetricsState) (duration : Int) : MetricsState :=
  if st.initialized = false then st
  else
    let r := getHistogram st httpRequestDurationName
    histRecordRun r.2 r.1 duration

/-- Number of `add` calls recorded against the counter registered under
`name`. -/
def counterAddCount (st : MetricsState) (name : String) : Nat :=
  match alistFind st.counters (getMetricKey st name) with
  | none => 0
  | some id => (st.counterAdds.filter (fun p => p.1 = id)).length

/-- Number of observations recorded against the histogram registered under
`name`. -/
def histObsCount (st : MetricsState) (name : String) : Nat :=
  match alistFind st.histograms (getMetricKey st name) with
  | none => 0
  | some id => (st.histRecords.filter (fun p => p.1 = id)).length

/-- Execution of `HttpTraceInterceptor.intercept`
(`src/lib/interceptors/http-trace.interceptor.ts`) composed with
`TracingService.traceAsync` (`src/lib/services/tracing.service.ts`, lines
187-213) on a request whose downstream handler REJECTS with `e`, with both
pillars initialised.  The model linearises the actual promise/rxjs
scheduling, which pins down the code path:

1. `traceAsync(name, fn, SpanKind.SERVER)` starts the server span and runs
   `fn(span)` inside `context.with`; `fn` attaches the request attributes,
   increments `http.request.total` (the failing request carries no body, so
   no request-size observation) and returns `next.handle()` - a COLD rxjs
   Observable, not yet subscribed.
2. `await fn(span)` resolves immediately with the Observable itself (an
   Observable is not a thenable), so `traceAsync` takes its success path
   right away: `span.setStatus(OK)` and, in the `finally`, `span.end()` -
   before the handler has run.
3. `switchMap` then subscribes the inner Observable and the handler rejects
   with `e`; `catchError` runs outside the `context.with` scope, so
   `getCurrentSpan()` yields no span and `setError(e)` mutates nothing; it
   increments `http.error.total`, records one `http.request.duration`
   observation, and re-emits the identical error object via
   `throwError(() => error)`. -/
def interceptorOnReject (mSt : MetricsState) (attrs : List (String × AttrVal))
    (e : JsError) (duration : Int) (reqName : String) :
    Except JsError Unit × SpanObjState × MetricsState :=
  let span1 := applyAttrList ⟨.full, reqName, some 1, [], [], .unset, [], 0⟩ attrs
  let m1 := incrementHttpRequestTotal mSt
  let span2 := spanSetStatus span1 .statusOk
  let span3 := spanEndCall span2
  let m2 := incrementHttpErrorTotal m1
  let m3 := recordHttpRequestDuration m2 duration
  (.error e, span3, m3)

/-- Monotonicity of the containment test along sub-terms: if the lowered `g`
occurs inside the lowered `f`, any key containing `f` also contains `g`. -/
theorem lcContains_mono (k f g : String)
    (h : (g.toList.map Char.toLower) <:+: (f.toList.map Char.toLower)) :
    lcContains k f = true → lcContains k g = true := by
  simp only [lcContains, decide_eq_true_eq]
  exact fun hf => h.trans hf

/-- The source sensitive-term list and the claim sensitive-term list induce
the same key predicate: the three extra source terms (`apiKey`, `api_key`,
`credentials`) each contain a claim term (`key`, `credential`) as a
substring, so containment matching absorbs them. -/
theorem sensitive_eq (k : String) : isSensitiveKey k = claimIsSensitiveKey k := by
  have h1 : lcContains k "apiKey" = true → lcContains k "key" = true :=
    lcContains_mono k "apiKey" "key" (by decide)
  have h2 : lcContains k "api_key" = true → lcContains k "key" = true :=
    lcContains_mono k "api_key" "key" (by decide)
  have h3 : lcContains k "credentials" = true → lcContains k "credential" = true :=
    lcContains_mono k "credentials" "credential" (by decide)
  simp only [isSensitiveKey, claimIsSensitiveKey, sensitiveFields, claimSensitiveTerms,
    List.any_cons, List.any_nil, Bool.or_false]
  cases hA : lcContains k "apiKey" <;> cases hB : lcContains k "api_key" <;>
    cases hC : lcContains k "credentials" <;>
    simp_all

/-- The source sanitiser equals the claim-described sanitiser at every fuel. -/
theorem sanV_eq_claimSanV : ∀ fuel v, sanV fuel v = claimSanV fuel v := by
  intro fuel
  induction fuel with
  | zero => intro v; rfl
  | succ n ih =>
    intro v
    cases v with
    | vobj fs =>
      simp only [sanV, claimSanV]
      congr 1
      apply List.map_congr_left
      intro kv _
      rw [sensitive_eq kv.1, ih kv.2]
    | varr es =>
      simp only [sanV, claimSanV]
      congr 1
      apply List.map_congr_left
      intro kv _
      rw [sensitive_eq kv.1, ih kv.2]
    | vstr s => rfl
    | vnum n => rfl
    | vbool b => rfl
    | vnull => rfl

/-- Members of `enumKeys` carry values of the underlying list. -/
theorem mem_enumKeys {kv : String × JVal} :
    ∀ (i : Nat) (es : List JVal), kv ∈ enumKeys i es → kv.2 ∈ es := by
  intro i es
  induction es generalizing i with
  | nil => intro h; simp [enumKeys] at h
  | cons v vs ih =>
    intro h
    simp only [enumKeys, List.mem_cons] at h
    rcases h with h | h
    · subst h; simp
    · exact List.mem_cons_of_mem _ (ih _ h)

/-- Once the fuel covers the depth of the value, `sanV` is fuel-independent:
any larger fuel yields the same result. -/
theorem sanV_stable : ∀ n v, depthLe n v = true → ∀ m, n ≤ m → sanV m v = sanV n v := by
  intro n
  induction n with
  | zero =>
    intro v h m _
    cases v with
    | vobj fs => simp [depthLe] at h
    | varr es => simp [depthLe] at h
    | vstr s => cases m <;> rfl
    | vnum x => cases m <;> rfl
    | vbool b => cases m <;> rfl
    | vnull => cases m <;> rfl
  | succ k ih =>
    intro v h m hm
    obtain ⟨m', rfl⟩ : ∃ m', m = m' + 1 := ⟨m - 1, by omega⟩
    have hkm : k ≤ m' := by omega
    cases v with
    | vobj fs =>
      simp only [sanV]
      congr 1
      apply List.map_congr_left
      intro kv hkv
      have hd : depthLe k kv.2 = true := by
        simp only [depthLe, List.all_eq_true] at h
        exact h kv hkv
      by_cases hs : isSensitiveKey kv.1 = true
      · simp [hs]
      · by_cases ho : isObjectTyped kv.2 = true
        · simp [hs, ho, ih kv.2 hd m' hkm]
        · simp [hs, ho]
    | varr es =>
      simp only [sanV]
      congr 1
      apply List.map_congr_left
      intro kv hkv
      have hd : depthLe k kv.2 = true := by
        simp only [depthLe, List.all_eq_true] at h
        exact h kv.2 (mem_enumKeys 0 es hkv)
      by_cases hs : isSensitiveKey kv.1 = true
      · simp [hs]
      · by_cases ho : isObjectTyped kv.2 = true
        · simp [hs, ho, ih kv.2 hd m' hkm]
        · simp [hs, ho]
    | vstr s => rfl
    | vnum x => rfl
    | vbool b => rfl
    | vnull => rfl

@[simp]
theorem spanSetAttribute_endCalls (st : SpanObjState) (k : String) (v : AttrVal) :
    (spanSetAttribute st k v).endCalls = st.endCalls := by
  unfold spanSetAttribute; split <;> rfl

@[simp]
theorem spanSetStatus_endCalls (st : SpanObjState) (c : SpanStatus) :
    (spanSetStatus st c).endCalls = st.endCalls := by
  unfold spanSetStatus; split <;> rfl

@[simp]
theorem spanRecordException_endCalls (st : SpanObjState) (e : JsError) :
    (spanRecordException st e).endCalls = st.endCalls := by
  unfold spanRecordException; split <;> rfl

@[simp]
theorem spanSetAttribute_surface (st : SpanObjState) (k : String) (v : AttrVal) :
    (spanSetAttribute st k v).surface = st.surface := by
  unfold spanSetAttribute; split <;> rfl

@[simp]
theorem spanSetStatus_surface (st : SpanObjState) (c : SpanStatus) :
    (spanSetStatus st c).surface = st.surface := by
  unfold spanSetStatus; split <;> rfl

@[simp]
theorem spanRecordException_surface (st : SpanObjState) (e : JsError) :
    (spanRecordException st e).surface = st.surface := by
  unfold spanRecordException; split <;> rfl

@[simp]
theorem applyAttrList_endCalls (l : List (String × AttrVal)) :
    ∀ st : SpanObjState, (applyAttrList st l).endCalls = st.endCalls := by
  induction l with
  | nil => intro st; rfl
  | cons kv rest ih =>
    intro st
    have : applyAttrList st (kv :: rest) = applyAttrList (spanSetAttribute st kv.1 kv.2) rest := rfl
    rw [this, ih]
    simp

@[simp]
theorem applyAttrList_surface (l : List (String × AttrVal)) :
    ∀ st : SpanObjState, (applyAttrList st l).surface = st.surface := by
  induction l with
  | nil => intro st; rfl
  | cons kv rest ih =>
    intro st
    have : applyAttrList st (kv :: rest) = applyAttrList (spanSetAttribute st kv.1 kv.2) rest := rfl
    rw [this, ih]
    simp

/-- On a real span, running a list of `setAttribute` calls appends exactly
that list to the attribute map and changes nothing else. -/
theorem applyAttrList_full (l : List (String × AttrVal)) :
    ∀ st : SpanObjState, st.surface = .full →
      applyAttrList st l = { st with attrs := st.attrs ++ l } := by
  induction l with
  | nil => intro st _; simp [applyAttrList]
  | cons kv rest ih =>
    intro st h
    have hstep : applyAttrList st (kv :: rest) = applyAttrList (spanSetAttribute st kv.1 kv.2) rest := rfl
    have h2 : (spanSetAttribute st kv.1 kv.2).surface = SpanSurface.full := by simp [h]
    rw [hstep, ih _ h2]
    simp [spanSetAttribute, h]

/-- `endSpan` on a span that passes the duck-typing check calls the
underlying end operation exactly once. -/
theorem endSpanValid_endCalls (st : SpanObjState) (success : Bool) (error : Option JsError)
    (attributes : Option (List (String × AttrIn))) :
    (endSpanValid st success error attributes).endCalls = st.endCalls + 1 := by
  unfold endSpanValid spanEndCall
  cases attributes <;> cases success <;> rcases error with _ | ⟨n, m, _ | stk⟩ <;> simp

/-- Both span objects `createSpan` can return (the real span and the no-op
literal) carry the three methods the duck-typing check of `endSpan` looks
for. -/
theorem createSpan_hasRequiredMethods (cfg : TracingCfg) (sdkFails : Bool) (name : String)
    (attributes : Option (List (String × AttrIn))) (kind : Option Nat) :
    hasRequiredMethods (createSpanRun cfg sdkFails name attributes kind).1 = true := by
  unfold createSpanRun
  split
  · rfl
  · split
    · rfl
    · simp [hasRequiredMethods, surfaceProvides]

/-- On a span with the required methods, `endSpan` runs its main body. -/
theorem endSpanTS_on_valid (st : SpanObjState) (success : Bool) (error : Option JsError)
    (attributes : Option (List (String × AttrIn))) (h : hasRequiredMethods st = true) :
    endSpanTS (some st) success error attributes = some (endSpanValid st success error attributes) := by
  simp [endSpanTS, h]

/-- On a real span, the whole `endSpan` body amounts to: append the processed
extra attributes, then `operation.success`, then the error detail attributes;
set the final status; record the exception exactly on the error-with-detail
path; count one end call. -/
theorem endSpanValid_full (st : SpanObjState) (h : st.surface = SpanSurface.full)
    (success : Bool) (error : Option JsError) (extra : Option (List (String × AttrIn))) :
    endSpanValid st success error extra =
      { st with
        attrs := st.attrs ++ processAttrs (extra.getD []) ++ [("operation.success", .b success)] ++
          (match success, error with
            | false, some e =>
              [("error.type", AttrVal.s (errorName e)), ("error.message", AttrVal.s e.message)] ++
                (match e.stack with
                  | some stk => [("error.stack", AttrVal.s stk)]
                  | none => [])
            | _, _ => []),
        status := (match success, error with
          | true, _ => SpanStatus.statusOk
          | false, some e => SpanStatus.statusError e.message
          | false, none => SpanStatus.statusError "Unknown error"),
        exceptions := st.exceptions ++ (match success, error with
          | false, some e => [e.message]
          | _, _ => []),
        endCalls := st.endCalls + 1 } := by
  unfold endSpanValid spanEndCall
  cases extra <;> cases success <;> rcases error with _ | ⟨n, m, _ | stk⟩ <;>
    simp [applyAttrList_full, spanSetAttribute, spanSetStatus, spanRecordException, h,
      Option.getD, processAttrs]

/-- C3.  `TracingService.endSpan(span, success, error?, extraAttributes?)`:
a no-op on a null span and on a span lacking the expected method set;
otherwise it merges the extra attributes onto the span before finalising the
status, sets status OK exactly when `success` is true, sets status ERROR with
the error message and records the exception when `success` is false and an
error is given, sets a generic ERROR status (message "Unknown error") with no
exception when `success` is false and no error is given, and calls the
underlying end operation exactly once. -/
theorem claim_C3_endSpan (success : Bool) (error : Option JsError)
    (extra : Option (List (String × AttrIn))) :
    endSpanTS none success error extra = none ∧
    (∀ st : SpanObjState, hasRequiredMethods st = false →
      endSpanTS (some st) success error extra = some st) ∧
    (∀ st : SpanObjState, st.surface = SpanSurface.full →
      endSpanTS (some st) success error extra =
        some { st with
          attrs := st.attrs ++ processAttrs (extra.getD []) ++ [("operation.success", .b success)] ++
            (match success, error with
              | false, some e =>
                [("error.type", AttrVal.s (errorName e)), ("error.message", AttrVal.s e.message)] ++
                  (match e.stack with
                    | some stk => [("error.stack", AttrVal.s stk)]
                    | none => [])
              | _, _ => []),
          status := (match success, error with
            | true, _ => SpanStatus.statusOk
            | false, some e => SpanStatus.statusError e.message
            | false, none => SpanStatus.statusError "Unknown error"),
          exceptions := st.exceptions ++ (match success, error with
            | false, some e => [e.message]
            | _, _ => []),
          endCalls := st.endCalls + 1 }) := by
  refine ⟨rfl, ?_, ?_⟩
  · intro st h
    simp [endSpanTS, h]
  · intro st h
    rw [endSpanTS_on_valid st success error extra
      (by simp [hasRequiredMethods, h, surfaceProvides])]
    rw [endSpanValid_full st h]

/-- Witness for C3 at a concrete real span, failure outcome with an error and
one extra attribute. -/
theorem claim_C3_endSpan_witness :
    endSpanTS (some ⟨SpanSurface.full, "op", none, [], [], SpanStatus.unset, [], 0⟩)
        false (some ⟨"Error", "boom", none⟩) (some [("k", AttrIn.str "v")]) =
      some ⟨SpanSurface.full, "op", none, [],
        [("k", AttrVal.s "v"), ("operation.success", AttrVal.b false),
         ("error.type", AttrVal.s "Error"), ("error.message", AttrVal.s "boom")],
        SpanStatus.statusError "boom", ["boom"], 1⟩ := by
  have h := (claim_C3_endSpan false (some ⟨"Error", "boom", none⟩)
    (some [("k", AttrIn.str "v")])).2.2
    ⟨SpanSurface.full, "op", none, [], [], SpanStatus.unset, [], 0⟩ rfl
  exact h.trans (by decide)

/-- C1.  `TracingService.trace(name, fn, options)` ends the span it created
exactly once on every exit path (normal return or resolution, throw or
rejection of `fn`, and even a throwing `resultAttributes` extractor), and on
the error path rethrows the very error `fn` failed with, unchanged. -/
theorem claim_C1_trace (T : Type) (cfg : TracingCfg) (sdkFails : Bool) (name : String)
    (attributes : Option (List (String × AttrIn))) (kind : Option Nat)
    (fnOutcome : Except JsError T)
    (resultAttributes : Option (T → Except JsError (Option (List (String × AttrIn))))) :
    (traceRun cfg sdkFails name attributes kind fnOutcome resultAttributes).2.endCalls = 1 ∧
    (∀ e, fnOutcome = Except.error e →
      (traceRun cfg sdkFails name attributes kind fnOutcome resultAttributes).1 = Except.error e) ∧
    (∀ r, fnOutcome = Except.ok r → resultAttributes = none →
      (traceRun cfg sdkFails name attributes kind fnOutcome resultAttributes).1 = Except.ok r) := by
  have h0 : (createSpanRun cfg sdkFails name attributes kind).1.endCalls = 0 := by
    unfold createSpanRun
    split
    · rfl
    · split
      · rfl
      · simp
  refine ⟨?_, ?_, ?_⟩
  · unfold traceRun
    cases fnOutcome with
    | error e => simp [endSpanValid_endCalls, h0]
    | ok r =>
      cases resultAttributes with
      | none => simp [endSpanValid_endCalls, h0]
      | some f => cases hf : f r <;> simp [hf, endSpanValid_endCalls, h0]
  · intro e he
    subst he
    rfl
  · intro r hr hn
    subst hr
    subst hn
    rfl

/-- Witness for C1 on a rejecting `fn` with a real tracing configuration. -/
theorem claim_C1_trace_witness :
    (traceRun ⟨true, "svc", "1.0", "dev"⟩ false "op" none none
      (Except.error ⟨"Error", "boom", none⟩ : Except JsError Unit) none).2.endCalls = 1 ∧
    (traceRun ⟨true, "svc", "1.0", "dev"⟩ false "op" none none
      (Except.error ⟨"Error", "boom", none⟩ : Except JsError Unit) none).1 =
        Except.error ⟨"Error", "boom", none⟩ := by
  have h := claim_C1_trace Unit ⟨true, "svc", "1.0", "dev"⟩ false "op" none none
    (Except.error ⟨"Error", "boom", none⟩) none
  exact ⟨h.1, h.2.1 _ rfl⟩

/-- C2 (documents the code bug).  When tracing is disabled,
`traceWithActiveSpan` executes `return fn({} as Span)`: the callback receives
the empty object, on which EVERY `Span` interface method is undefined, so any
span-method call inside `fn` raises a `TypeError` into application code
instead of being a safe no-op; only a callback that never touches its span
argument gets its result through. -/
theorem claim_C2_disabled_span_throws :
    traceWithActiveSpanDisabled (fun s => callSpanMethod s SpanMethodName.setAttribute) =
      Except.error jsTypeError ∧
    (∀ m : SpanMethodName, callSpanMethod emptySpanState m = Except.error jsTypeError) ∧
    traceWithActiveSpanDisabled (fun _ => (Except.ok 42 : Except JsError Nat)) = Except.ok 42 := by
  refine ⟨rfl, ?_, rfl⟩
  intro m
  cases m <;> rfl

/-- C6 counterexample to the claim as stated: with tracing disabled,
`createSpan` returns the no-op literal, and `addEvent` IS a method of the
`Span` interface, yet calling it on the returned span throws (the literal
only defines four methods). -/
theorem claim_C6_counterexample :
    (createSpanRun ⟨false, "svc", "1.0", "dev"⟩ false "op" none none).1 = noopSpanState ∧
    SpanMethodName.addEvent ∈ spanInterfaceMethods ∧
    callSpanMethod noopSpanState SpanMethodName.addEvent = Except.error jsTypeError :=
  ⟨rfl, by decide, rfl⟩

/-- C6 (amended).  `createSpan` never throws: with tracing disabled it
returns the no-op literal without touching the SDK; an internal SDK failure
is caught and the no-op literal returned; the no-op literal provides exactly
`setAttribute`, `setStatus`, `recordException` and `end` (not the rest of
the `Span` interface) and each provided method is callable with no effect
and no exception; on the real path, object attribute values are attached
JSON-serialised, with the fixed `"[Object]"` fallback when serialisation
throws. -/
theorem claim_C6_createSpan_amended (cfg : TracingCfg) (sdkFails : Bool) (name : String)
    (attributes : Option (List (String × AttrIn))) (kind : Option Nat) :
    (cfg.enabled = false → createSpanRun cfg sdkFails name attributes kind = (noopSpanState, false)) ∧
    (sdkFails = true → (createSpanRun cfg sdkFails name attributes kind).1 = noopSpanState) ∧
    (∀ m : SpanMethodName, surfaceProvides SpanSurface.noopSurface m = true ↔
      (m = SpanMethodName.setAttribute ∨ m = SpanMethodName.setStatus ∨
        m = SpanMethodName.recordException ∨ m = SpanMethodName.endMethod)) ∧
    (∀ m : SpanMethodName, surfaceProvides SpanSurface.noopSurface m = true →
      callSpanMethod noopSpanState m = Except.ok ()) ∧
    (cfg.enabled = true → sdkFails = false →
      ∀ k js, (k, AttrIn.obj (some js)) ∈ attributes.getD [] →
        (k, AttrVal.s js) ∈ (createSpanRun cfg sdkFails name attributes kind).1.attrs) ∧
    (cfg.enabled = true → sdkFails = false →
      ∀ k, (k, AttrIn.obj none) ∈ attributes.getD [] →
        (k, AttrVal.s "[Object]") ∈ (createSpanRun cfg sdkFails name attributes kind).1.attrs) := by
  refine ⟨?_, ?_, ?_, ?_, ?_, ?_⟩
  · intro h
    simp [createSpanRun, h]
  · intro h
    subst h
    unfold createSpanRun
    split
    · rfl
    · rfl
  · intro m
    cases m <;> simp [surfaceProvides]
  · intro m h
    simp [callSpanMethod, noopSpanState, h]
  · intro he hs k js hmem
    simp only [createSpanRun, he, hs]
    rw [applyAttrList_full _ _ rfl]
    simp only [processAttrs]
    refine List.mem_append_right _ ?_
    rw [List.mem_flatMap]
    exact ⟨(k, AttrIn.obj (some js)), hmem, by simp [attrEntryOut]⟩
  · intro he hs k hmem
    simp only [createSpanRun, he, hs]
    rw [applyAttrList_full _ _ rfl]
    simp only [processAttrs]
    refine List.mem_append_right _ ?_
    rw [List.mem_flatMap]
    exact ⟨(k, AttrIn.obj none), hmem, by simp [attrEntryOut]⟩

/-- Witness for C6 at concrete inputs: a serialisable and a non-serialisable
object attribute on the real path, and the disabled path. -/
theorem claim_C6_createSpan_witness :
    ("cfg", AttrVal.s "SER") ∈ (createSpanRun ⟨true, "s", "1", "d"⟩ false "op"
      (some [("cfg", AttrIn.obj (some "SER")), ("bad", AttrIn.obj none)]) none).1.attrs ∧
    ("bad", AttrVal.s "[Object]") ∈ (createSpanRun ⟨true, "s", "1", "d"⟩ false "op"
      (some [("cfg", AttrIn.obj (some "SER")), ("bad", AttrIn.obj none)]) none).1.attrs ∧
    createSpanRun ⟨false, "s", "1", "d"⟩ false "op" none none = (noopSpanState, false) := by
  have h := claim_C6_createSpan_amended ⟨true, "s", "1", "d"⟩ false "op"
    (some [("cfg", AttrIn.obj (some "SER")), ("bad", AttrIn.obj none)]) none
  have h2 := claim_C6_createSpan_amended ⟨false, "s", "1", "d"⟩ false "op" none none
  exact ⟨h.2.2.2.2.1 rfl rfl "cfg" "SER" (by simp), h.2.2.2.2.2 rfl rfl "bad" (by simp),
    h2.1 rfl⟩

theorem alistFind_eq_none {α : Type} (l : List (String × α)) (k : String) :
    alistFind l k = none ↔ k ∉ l.map Prod.fst := by
  induction l with
  | nil => simp [alistFind]
  | cons kv rest ih =>
    rcases kv with ⟨k2, v⟩
    by_cases hk : k2 = k
    · subst hk
      simp [alistFind]
    · simp [alistFind, hk, ih, Ne.symm hk]

theorem alistFind_append_self {α : Type} (l : List (String × α)) (k : String) (v : α)
    (h : alistFind l k = none) : alistFind (l ++ [(k, v)]) k = some v := by
  induction l with
  | nil => simp [alistFind]
  | cons kv rest ih =>
    rcases kv with ⟨k2, w⟩
    by_cases hk : k2 = k
    · subst hk
      simp [alistFind] at h
    · rw [show alistFind ((k2, w) :: rest) k = alistFind rest k from by simp [alistFind, hk]] at h
      rw [List.cons_append]
      rw [show alistFind ((k2, w) :: (rest ++ [(k, v)])) k = alistFind (rest ++ [(k, v)]) k from by
        simp [alistFind, hk]]
      exact ih h

theorem nodupKeys_append {α : Type} {l : List (String × α)} {k : String} {v : α}
    (h : (l.map Prod.fst).Nodup) (hf : alistFind l k = none) :
    ((l ++ [(k, v)]).map Prod.fst).Nodup := by
  rw [List.map_append, List.nodup_append]
  refine ⟨h, by simp, ?_⟩
  intro a ha hb
  simp only [List.map_cons, List.map_nil, List.mem_singleton] at hb
  subst hb
  exact (alistFind_eq_none l a).mp hf ha

theorem getCounter_uninit (st : MetricsState) (n : String) (h : st.initialized = false) :
    getCounter st n = (.noopC st.nextId, { st with nextId := st.nextId + 1 }) := by
  unfold getCounter
  simp [h]

theorem getCounter_hit (st : MetricsState) (n : String) (h : st.initialized = true)
    (id : Nat) (hfind : alistFind st.counters (getMetricKey st n) = some id) :
    getCounter st n = (.realC id, st) := by
  unfold getCounter
  simp [h, hfind]

theorem getCounter_miss (st : MetricsState) (n : String) (h : st.initialized = true)
    (hfind : alistFind st.counters (getMetricKey st n) = none) :
    getCounter st n = (.realC st.nextId, { st with counters := st.counters ++ [(getMetricKey st n, st.nextId)], nextId := st.nextId + 1 }) := by
  unfold getCounter
  simp [h, hfind]

theorem getHistogram_uninit (st : MetricsState) (n : String) (h : st.initialized = false) :
    getHistogram st n = (.noopH st.nextId, { st with nextId := st.nextId + 1 }) := by
  unfold getHistogram
  simp [h]

theorem getHistogram_hit (st : MetricsState) (n : String) (h : st.initialized = true)
    (id : Nat) (hfind : alistFind st.histograms (getMetricKey st n) = some id) :
    getHistogram st n = (.realH id, st) := by
  unfold getHistogram
  simp [h, hfind]

theorem getHistogram_miss (st : MetricsState) (n : String) (h : st.initialized = true)
    (hfind : alistFind st.histograms (getMetricKey st n) = none) :
    getHistogram st n = (.realH st.nextId, { st with histograms := st.histograms ++ [(getMetricKey st n, st.nextId)], nextId := st.nextId + 1 }) := by
  unfold getHistogram
  simp [h, hfind]

theorem getUpDownCounter_uninit (st : MetricsState) (n : String) (h : st.initialized = false) :
    getUpDownCounter st n = (.noopU st.nextId, { st with nextId := st.nextId + 1 }) := by
  unfold getUpDownCounter
  simp [h]

theorem getUpDownCounter_hit (st : MetricsState) (n : String) (h : st.initialized = true)
    (id : Nat) (hfind : alistFind st.upDownCounters (getMetricKey st n) = some id) :
    getUpDownCounter st n = (.realU id, st) := by
  unfold getUpDownCounter
  simp [h, hfind]

theorem getUpDownCounter_miss (st : MetricsState) (n : String) (h : st.initialized = true)
    (hfind : alistFind st.upDownCounters (getMetricKey st n) = none) :
    getUpDownCounter st n = (.realU st.nextId, { st with upDownCounters := st.upDownCounters ++ [(getMetricKey st n, st.nextId)], nextId := st.nextId + 1 }) := by
  unfold getUpDownCounter
  simp [h, hfind]

theorem getObservableGauge_uninit (st : MetricsState) (n : String) (cb : Unit → Int)
    (h : st.initialized = false) :
    getObservableGauge st n cb = (.emptyG st.nextId, { st with nextId := st.nextId + 1 }) := by
  unfold getObservableGauge
  simp [h]

theorem getObservableGauge_hit (st : MetricsState) (n : String) (cb : Unit → Int)
    (g : GaugeInst) (h : st.initialized = true)
    (hfind : alistFind st.gauges (getMetricKey st n) = some g) :
    getObservableGauge st n cb = (.realG g.id, st) := by
  unfold getObservableGauge
  simp [h, hfind]

theorem getObservableGauge_miss (st : MetricsState) (n : String) (cb : Unit → Int)
    (h : st.initialized = true)
    (hfind : alistFind st.gauges (getMetricKey st n) = none) :
    getObservableGauge st n cb = (.realG st.nextId, { st with gauges := st.gauges ++ [(getMetricKey st n, ⟨st.nextId, [cb]⟩)], nextId := st.nextId + 1 }) := by
  unfold getObservableGauge
  simp [h, hfind]

/-- Second lookup of the same counter name returns the identical handle and
leaves the registry untouched. -/
theorem getCounter_idem (st : MetricsState) (n : String) (h : st.initialized = true) :
    getCounter (getCounter st n).2 n = getCounter st n := by
  cases hfind : alistFind st.counters (getMetricKey st n) with
  | some id =>
    have h1 := getCounter_hit st n h id hfind
    rw [h1]
    exact h1
  | none =>
    rw [getCounter_miss st n h hfind]
    refine getCounter_hit _ n ?_ st.nextId ?_
    · exact h
    · exact alistFind_append_self _ _ _ hfind

/-- Second lookup of the same histogram name is idempotent. -/
theorem getHistogram_idem (st : MetricsState) (n : String) (h : st.initialized = true) :
    getHistogram (getHistogram st n).2 n = getHistogram st n := by
  cases hfind : alistFind st.histograms (getMetricKey st n) with
  | some id =>
    have h1 := getHistogram_hit st n h id hfind
    rw [h1]
    exact h1
  | none =>
    rw [getHistogram_miss st n h hfind]
    refine getHistogram_hit _ n ?_ st.nextId ?_
    · exact h
    · exact alistFind_append_self _ _ _ hfind

/-- Second lookup of the same up-down-counter name is idempotent. -/
theorem getUpDownCounter_idem (st : MetricsState) (n : String) (h : st.initialized = true) :
    getUpDownCounter (getUpDownCounter st n).2 n = getUpDownCounter st n := by
  cases hfind : alistFind st.upDownCounters (getMetricKey st n) with
  | some id =>
    have h1 := getUpDownCounter_hit st n h id hfind
    rw [h1]
    exact h1
  | none =>
    rw [getUpDownCounter_miss st n h hfind]
    refine getUpDownCounter_hit _ n ?_ st.nextId ?_
    · exact h
    · exact alistFind_append_self _ _ _ hfind

/-- Second lookup of the same gauge name is idempotent; in particular the
second callback is dropped. -/
theorem getObservableGauge_idem (st : MetricsState) (n : String) (cb cb2 : Unit → Int)
    (h : st.initialized = true) :
    getObservableGauge (getObservableGauge st n cb).2 n cb2 = getObservableGauge st n cb := by
  cases hfind : alistFind st.gauges (getMetricKey st n) with
  | some g =>
    have h1 := getObservableGauge_hit st n cb g h hfind
    rw [h1]
    exact getObservableGauge_hit st n cb2 g h hfind
  | none =>
    rw [getObservableGauge_miss st n cb h hfind]
    refine getObservableGauge_hit _ n cb2 ⟨st.nextId, [cb]⟩ ?_ ?_
    · exact h
    · exact alistFind_append_self _ _ _ hfind

/-- Each accessor call preserves key-distinctness of all four caches. -/
theorem metricStep_distinctKeys (st : MetricsState) (op : MetricOp)
    (h : distinctKeys st) : distinctKeys (metricStep st op) := by
  obtain ⟨h1, h2, h3, h4⟩ := h
  cases op with
  | opCounter n =>
    show distinctKeys (getCounter st n).2
    by_cases hi : st.initialized = true
    · cases hfind : alistFind st.counters (getMetricKey st n) with
      | some id =>
        rw [getCounter_hit st n hi id hfind]
        exact ⟨h1, h2, h3, h4⟩
      | none =>
        rw [getCounter_miss st n hi hfind]
        exact ⟨nodupKeys_append h1 hfind, h2, h3, h4⟩
    · rw [getCounter_uninit st n (by simpa using hi)]
      exact ⟨h1, h2, h3, h4⟩
  | opHistogram n =>
    show distinctKeys (getHistogram st n).2
    by_cases hi : st.initialized = true
    · cases hfind : alistFind st.histograms (getMetricKey st n) with
      | some id =>
        rw [getHistogram_hit st n hi id hfind]
        exact ⟨h1, h2, h3, h4⟩
      | none =>
        rw [getHistogram_miss st n hi hfind]
        exact ⟨h1, nodupKeys_append h2 hfind, h3, h4⟩
    · rw [getHistogram_uninit st n (by simpa using hi)]
      exact ⟨h1, h2, h3, h4⟩
  | opUpDown n =>
    show distinctKeys (getUpDownCounter st n).2
    by_cases hi : st.initialized = true
    · cases hfind : alistFind st.upDownCounters (getMetricKey st n) with
      | some id =>
        rw [getUpDownCounter_hit st n hi id hfind]
        exact ⟨h1, h2, h3, h4⟩
      | none =>
        rw [getUpDownCounter_miss st n hi hfind]
        exact ⟨h1, h2, nodupKeys_append h3 hfind, h4⟩
    · rw [getUpDownCounter_uninit st n (by simpa using hi)]
      exact ⟨h1, h2, h3, h4⟩
  | opGauge n cb =>
    show distinctKeys (getObservableGauge st n cb).2
    by_cases hi : st.initialized = true
    · cases hfind : alistFind st.gauges (getMetricKey st n) with
      | some g =>
        rw [getObservableGauge_hit st n cb g hi hfind]
        exact ⟨h1, h2, h3, h4⟩
      | none =>
        rw [getObservableGauge_miss st n cb hi hfind]
        exact ⟨h1, h2, h3, nodupKeys_append h4 hfind⟩
    · rw [getObservableGauge_uninit st n cb (by simpa using hi)]
      exact ⟨h1, h2, h3, h4⟩

/-- Any sequence of accessor calls preserves key-distinctness. -/
theorem runMetricOps_distinctKeys (ops : List MetricOp) :
    ∀ st : MetricsState, distinctKeys st → distinctKeys (runMetricOps st ops) := by
  induction ops with
  | nil => intro st h; exact h
  | cons op rest ih =>
    intro st h
    exact ih _ (metricStep_distinctKeys st op h)

/-- C5 counterexample to the claim as stated: the key `items` matches no
sensitive term and its value is an array, which the claim (and the
specification redaction rule: arrays pass through) says is passed through
unchanged; the source converts the array into a plain index-keyed object.
Fuel 2 covers the depth of the input (third conjunct), so the run is the
JavaScript run. -/
theorem claim_C5_counterexample :
    sanV 2 (JVal.vobj [("items", JVal.varr [JVal.vnum 1])]) ≠
      JVal.vobj [("items", JVal.varr [JVal.vnum 1])] ∧
    isSensitiveKey "items" = false ∧
    depthLe 2 (JVal.vobj [("items", JVal.varr [JVal.vnum 1])]) = true :=
  ⟨fun h => absurd (congrArg (renderJ 3) h) (by decide), by decide, rfl⟩

/-- C5 (amended).  The sanitiser replaces the value of every key whose
lowercased name contains one of the claim sensitive terms with
`"[REDACTED]"`, recurses into nested objects AND arrays - converting an
array into a plain object keyed by its indices - and passes every other
value through unchanged: the source walk coincides with the claim-side walk
`claimSanV` at every fuel, and the stated concrete example sanitises as
claimed at every sufficient fuel. -/
theorem claim_C5_sanitizer_amended :
    (∀ fuel v, sanV fuel v = claimSanV fuel v) ∧
    (∀ fuel, 3 ≤ fuel →
      sanV fuel (JVal.vobj [("password", JVal.vstr "p1"),
        ("nested", JVal.vobj [("token", JVal.vstr "t1"), ("ok", JVal.vstr "v")])]) =
      JVal.vobj [("password", JVal.vstr "[REDACTED]"),
        ("nested", JVal.vobj [("token", JVal.vstr "[REDACTED]"), ("ok", JVal.vstr "v")])]) := by
  refine ⟨sanV_eq_claimSanV, ?_⟩
  intro fuel h
  rw [sanV_stable 3 _ (by rfl) fuel h]
  rfl

/-- Witness for C5 at fuel 4. -/
theorem claim_C5_sanitizer_witness :
    3 ≤ 4 ∧
    sanV 4 (JVal.vobj [("password", JVal.vstr "p1"),
        ("nested", JVal.vobj [("token", JVal.vstr "t1"), ("ok", JVal.vstr "v")])]) =
      JVal.vobj [("password", JVal.vstr "[REDACTED]"),
        ("nested", JVal.vobj [("token", JVal.vstr "[REDACTED]"), ("ok", JVal.vstr "v")])] :=
  ⟨by decide, claim_C5_sanitizer_amended.2 4 (by decide)⟩

/-- C7 counterexample to the claim as stated: on an uninitialised (or
metrics-disabled) registry, each `getCounter` call allocates a FRESH no-op
literal, so two calls with the same name do not return the identical handle. -/
theorem claim_C7_counterexample :
    (getCounter (getCounter (emptyMetricsState false) "x").2 "x").1 ≠
      (getCounter (emptyMetricsState false) "x").1 := by
  decide

/-- C7 (amended).  On an INITIALISED registry, repeated lookups of the same
logical name return the identical instrument handle and leave the registry
untouched, for all four instrument kinds; the instrument is registered under
the fully-qualified name `prefix ++ name` with the prefix defaulting to the
empty string; and every sequence of accessor calls preserves the invariant
that at most one instrument of a given kind exists per fully-qualified name.
(When the registry is uninitialised the accessors return fresh no-op handles
and register nothing - see the counterexample.) -/
theorem claim_C7_registry_amended (st : MetricsState) (n : String) (cb cb2 : Unit → Int)
    (h : st.initialized = true) :
    getCounter (getCounter st n).2 n = getCounter st n ∧
    getHistogram (getHistogram st n).2 n = getHistogram st n ∧
    getUpDownCounter (getUpDownCounter st n).2 n = getUpDownCounter st n ∧
    getObservableGauge (getObservableGauge st n cb).2 n cb2 = getObservableGauge st n cb ∧
    (∃ id, (getCounter st n).1 = CounterHandle.realC id ∧
      alistFind (getCounter st n).2.counters (getMetricKey st n) = some id) ∧
    getMetricKey st n = st.pfx.getD "" ++ n ∧
    (∀ ops, distinctKeys st → distinctKeys (runMetricOps st ops)) := by
  refine ⟨getCounter_idem st n h, getHistogram_idem st n h, getUpDownCounter_idem st n h,
    getObservableGauge_idem st n cb cb2 h, ?_, ?_, fun ops => runMetricOps_distinctKeys ops st⟩
  · cases hfind : alistFind st.counters (getMetricKey st n) with
    | some id =>
      refine ⟨id, ?_, ?_⟩
      · rw [getCounter_hit st n h id hfind]
      · rw [getCounter_hit st n h id hfind]
        exact hfind
    | none =>
      refine ⟨st.nextId, ?_, ?_⟩
      · rw [getCounter_miss st n h hfind]
      · rw [getCounter_miss st n h hfind]
        exact alistFind_append_self _ _ _ hfind
  · unfold getMetricKey
    rcases hp : st.pfx with _ | p
    · rfl
    · by_cases he : p = ""
      · subst he
        rfl
      · simp [he]

/-- Witness for C7 on an initialised empty registry. -/
theorem claim_C7_registry_witness :
    getCounter (getCounter (emptyMetricsState true) "x").2 "x" =
      getCounter (emptyMetricsState true) "x" ∧
    getMetricKey (emptyMetricsState true) "x" =
      (emptyMetricsState true).pfx.getD "" ++ "x" := by
  have h := claim_C7_registry_amended (emptyMetricsState true) "x"
    (fun _ => 0) (fun _ => 1) rfl
  exact ⟨h.1, h.2.2.2.2.2.1⟩

/-- C8.  When metrics are disabled or the registry is uninitialised, every
accessor returns a no-op instrument: the counter and up-down-counter accept
`.add` and the histogram accepts `.record` silently (no state change, no
exception), and `getObservableGauge` accepts the value callback without
registering it and returns the empty-object handle - so callers never need
to null-check the returned handle. -/
theorem claim_C8_noop_instruments (st : MetricsState) (n : String) (cb : Unit → Int) (v : Int)
    (h : st.initialized = false) :
    (∃ i, (getCounter st n).1 = CounterHandle.noopC i) ∧
    (∀ st2 : MetricsState, counterAddRun st2 (getCounter st n).1 v = st2) ∧
    (∃ i, (getHistogram st n).1 = HistogramHandle.noopH i) ∧
    (∀ st2 : MetricsState, histRecordRun st2 (getHistogram st n).1 v = st2) ∧
    (∃ i, (getUpDownCounter st n).1 = UpDownHandle.noopU i) ∧
    (∀ st2 : MetricsState, upDownAddRun st2 (getUpDownCounter st n).1 v = st2) ∧
    (∃ i, (getObservableGauge st n cb).1 = GaugeHandle.emptyG i) ∧
    (getObservableGauge st n cb).2.gauges = st.gauges := by
  rw [getCounter_uninit st n h, getHistogram_uninit st n h, getUpDownCounter_uninit st n h,
    getObservableGauge_uninit st n cb h]
  exact ⟨⟨st.nextId, rfl⟩, fun st2 => rfl, ⟨st.nextId, rfl⟩, fun st2 => rfl,
    ⟨st.nextId, rfl⟩, fun st2 => rfl, ⟨st.nextId, rfl⟩, rfl⟩

/-- Witness for C8 on an uninitialised registry. -/
theorem claim_C8_noop_instruments_witness :
    counterAddRun (getCounter (emptyMetricsState false) "x").2
        (getCounter (emptyMetricsState false) "x").1 7 =
      (getCounter (emptyMetricsState false) "x").2 ∧
    (getObservableGauge (emptyMetricsState false) "x" (fun _ => 5)).2.gauges =
      (emptyMetricsState false).gauges := by
  have h := claim_C8_noop_instruments (emptyMetricsState false) "x" (fun _ => 5) 7 rfl
  exact ⟨h.2.1 _, h.2.2.2.2.2.2.2⟩

/-- C9.  After `recordGaugeMetric(n, v1)` has registered the gauge (the
name was not yet cached), every later `recordGaugeMetric(n, v2)` leaves the
registry state completely unchanged: only the first registration callback is
retained and the gauge continues to report `v1`. -/
theorem claim_C9_gauge_first_value_wins (st : MetricsState) (n : String) (v1 v2 : Int)
    (hinit : st.initialized = true)
    (hnew : alistFind st.gauges (getMetricKey st n) = none) :
    recordGaugeMetric (recordGaugeMetric st n v1) n v2 = recordGaugeMetric st n v1 ∧
    (∃ g : GaugeInst,
      alistFind (recordGaugeMetric st n v1).gauges (getMetricKey st n) = some g ∧
      g.callbacks.map (fun c => c ()) = [v1]) := by
  constructor
  · show (getObservableGauge (getObservableGauge st n (fun _ => v1)).2 n (fun _ => v2)).2 =
      (getObservableGauge st n (fun _ => v1)).2
    rw [getObservableGauge_idem st n (fun _ => v1) (fun _ => v2) hinit]
  · show ∃ g : GaugeInst,
      alistFind (getObservableGauge st n (fun _ => v1)).2.gauges (getMetricKey st n) = some g ∧
      g.callbacks.map (fun c => c ()) = [v1]
    rw [getObservableGauge_miss st n (fun _ => v1) hinit hnew]
    exact ⟨⟨st.nextId, [fun _ => v1]⟩, alistFind_append_self _ _ _ hnew, rfl⟩

/-- Witness for C9 on an initialised empty registry with values 1 then 2. -/
theorem claim_C9_gauge_witness :
    recordGaugeMetric (recordGaugeMetric (emptyMetricsState true) "g" 1) "g" 2 =
      recordGaugeMetric (emptyMetricsState true) "g" 1 ∧
    (∃ g : GaugeInst,
      alistFind (recordGaugeMetric (emptyMetricsState true) "g" 1).gauges
        (getMetricKey (emptyMetricsState true) "g") = some g ∧
      g.callbacks.map (fun c => c ()) = [1]) :=
  claim_C9_gauge_first_value_wins (emptyMetricsState true) "g" 1 2 rfl rfl

theorem heapExt_refl (h : Heap) : heapExt h h :=
  ⟨Nat.le_refl _, fun _ _ => rfl⟩

theorem heapExt_trans {h1 h2 h3 : Heap} (a : heapExt h1 h2) (b : heapExt h2 h3) :
    heapExt h1 h3 :=
  ⟨Nat.le_trans a.1 b.1, fun i hi => (b.2 i (Nat.lt_of_lt_of_le hi a.1)).trans (a.2 i hi)⟩

theorem heapExt_append (h : Heap) (l : Heap) : heapExt h (h ++ l) :=
  ⟨by simp, fun i hi => by rw [List.getElem?_append, if_pos hi]⟩

theorem sanFold_none (recf : Heap → Nat → Option (Heap × Nat)) :
    ∀ fields : List (String × HVal), fields.foldl (sanStepG recf) none = none := by
  intro fields
  induction fields with
  | nil => rfl
  | cons kv rest ih => simpa [sanStepG] using ih

/-- The key loop only extends the heap. -/
theorem sanFold_ext (recf : Heap → Nat → Option (Heap × Nat))
    (hrec : ∀ h a r, recf h a = some r → heapExt h r.1) :
    ∀ (fields : List (String × HVal)) (h2 : Heap) (out h4out : List (String × HVal)) (h4 : Heap),
      fields.foldl (sanStepG recf) (some (h2, out)) = some (h4, h4out) → heapExt h2 h4 := by
  intro fields
  induction fields with
  | nil =>
    intro h2 out h4out h4 hf
    simp only [List.foldl_nil, Option.some.injEq, Prod.mk.injEq] at hf
    rw [← hf.1]
    exact heapExt_refl h2
  | cons kv rest ih =>
    intro h2 out h4out h4 hf
    rw [List.foldl_cons] at hf
    cases hstep : sanStepG recf (some (h2, out)) kv with
    | none =>
      rw [hstep, sanFold_none recf rest] at hf
      cases hf
    | some acc2 =>
      rcases acc2 with ⟨h3, out2⟩
      rw [hstep] at hf
      have hext23 := ih h3 out2 h4out h4 hf
      have hext12 : heapExt h2 h3 := by
        unfold sanStepG at hstep
        by_cases hs : isSensitiveKey kv.1 = true
        · simp only [hs, if_true] at hstep
          cases hstep
          exact heapExt_refl _
        · simp only [hs] at hstep
          simp only [if_neg, Bool.not_eq_true] at hstep
          rcases kv with ⟨k, v⟩
          cases v with
          | href b =>
            cases hr : recf h2 b with
            | none => simp [hr] at hstep
            | some r =>
              rcases r with ⟨h3b, b2⟩
              simp only [hr] at hstep
              cases hstep
              exact hrec h2 b _ hr
          | hstr s =>
            cases hstep
            exact heapExt_refl _
          | hnum x =>
            cases hstep
            exact heapExt_refl _
          | hbool b =>
            cases hstep
            exact heapExt_refl _
          | hnull =>
            cases hstep
            exact heapExt_refl _
      exact heapExt_trans hext12 hext23

/-- A successful sanitisation extends the heap without touching any
pre-existing cell, allocates the result at the first fresh address, and
strictly grows the heap. -/
theorem sanitizeH_ext : ∀ (fuel : Nat) (h : Heap) (a : Nat) (r : Heap × Nat),
    sanitizeH fuel h a = some r →
    heapExt h r.1 ∧ r.2 = h.length ∧ h.length < r.1.length := by
  intro fuel
  induction fuel with
  | zero =>
    intro h a r hr
    cases hr
  | succ n ih =>
    intro h a r hr
    unfold sanitizeH at hr
    cases hcell : h[a]? with
    | none =>
      rw [hcell] at hr
      cases hr
    | some cell =>
      rw [hcell] at hr
      dsimp only at hr
      cases hfold : (cellEntries cell).foldl (sanStepG (sanitizeH n))
          (some (h ++ [HCell.objCell (cellEntries cell)], [])) with
      | none =>
        rw [hfold] at hr
        cases hr
      | some acc =>
        rcases acc with ⟨h4, newFields⟩
        rw [hfold] at hr
        have hext1 : heapExt h (h ++ [HCell.objCell (cellEntries cell)]) :=
          heapExt_append h _
        have hext2 : heapExt (h ++ [HCell.objCell (cellEntries cell)]) h4 :=
          sanFold_ext (sanitizeH n) (fun h0 a0 r0 hr0 => (ih h0 a0 r0 hr0).1) _ _ _ _ _ hfold
        have hlen : h.length + 1 ≤ h4.length := by
          have := hext2.1
          simpa using this
        cases hr
        refine ⟨⟨?_, ?_⟩, rfl, ?_⟩
        · simpa using Nat.le_trans (Nat.le_succ _) hlen
        · intro i hi
          rw [List.getElem?_set_ne (by omega)]
          exact (heapExt_trans hext1 hext2).2 i hi
        · simpa using hlen

/-- C10.  The sanitiser never mutates its argument: after a (terminating)
run, every cell of the original heap - the input object and every nested
object it contains - holds exactly the bindings it held before, and the
result is a freshly allocated object (the first fresh address). -/
theorem claim_C10_sanitizer_no_mutation (fuel : Nat) (h : Heap) (a : Nat)
    (h2 : Heap) (a2 : Nat) (hrun : sanitizeH fuel h a = some (h2, a2)) :
    (∀ i, i < h.length → h2[i]? = h[i]?) ∧ a2 = h.length ∧ h.length < h2.length := by
  have hx := sanitizeH_ext fuel h a (h2, a2) hrun
  exact ⟨hx.1.2, hx.2.1, hx.2.2⟩

/-- Witness for C10 on `hExample`. -/
theorem claim_C10_sanitizer_witness :
    sanitizeH 3 hExample 0 = some (hExampleOut, 2) ∧
    hExampleOut[0]? = hExample[0]? ∧
    hExampleOut[1]? = hExample[1]? ∧
    2 = hExample.length ∧
    hExample.length < hExampleOut.length := by
  have hrun : sanitizeH 3 hExample 0 = some (hExampleOut, 2) := by decide
  have hx := claim_C10_sanitizer_no_mutation 3 hExample 0 hExampleOut 2 hrun
  exact ⟨hrun, hx.1 0 (by decide), hx.1 1 (by decide), hx.2.1, hx.2.2⟩

/-- C4 (documents the code bug).  On a rejecting handler the interceptor
increments the error-total counter exactly once, records exactly one
request-duration observation, creates a server-kind span and ends it exactly
once, and re-emits the identical error object - but the span is CLOSED WITH
STATUS OK, not ERROR: `traceAsync` awaited the cold Observable returned by
its callback, so the span was ended (OK) before the handler ran, and the
later `setError` found no current span.  The claim says the span ends with
ERROR status carrying the message "boom"; the final conjunct shows it ends
with OK instead. -/
theorem claim_C4_interceptor_error_path :
    (interceptorOnReject (emptyMetricsState true) [] ⟨"Error", "boom", none⟩ 5
      "HTTP GET /x").1 = Except.error ⟨"Error", "boom", none⟩ ∧
    counterAddCount (interceptorOnReject (emptyMetricsState true) [] ⟨"Error", "boom", none⟩ 5
      "HTTP GET /x").2.2 httpErrorTotalName = 1 ∧
    histObsCount (interceptorOnReject (emptyMetricsState true) [] ⟨"Error", "boom", none⟩ 5
      "HTTP GET /x").2.2 httpRequestDurationName = 1 ∧
    (interceptorOnReject (emptyMetricsState true) [] ⟨"Error", "boom", none⟩ 5
      "HTTP GET /x").2.1.kind = some 1 ∧
    (interceptorOnReject (emptyMetricsState true) [] ⟨"Error", "boom", none⟩ 5
      "HTTP GET /x").2.1.endCalls = 1 ∧
    (interceptorOnReject (emptyMetricsState true) [] ⟨"Error", "boom", none⟩ 5
      "HTTP GET /x").2.1.status = SpanStatus.statusOk := by
  refine ⟨rfl, ?_, ?_, rfl, rfl, rfl⟩
  · decide
  · decide
